import Mathlib

/-!
Verification of the pattern-based analysis pipeline of the Next.js optimizer
MCP server: a shallow embedding of the analyzer (`src/analyzers/code-analyzer.ts`),
the in-memory TTL cache (`src/utils/cache.ts`), the error/retry layer
(`src/utils/errors.ts`) and the aggregation/file-discovery helpers
(`src/services/github.ts`), together with theorems checking the specification
against those definitions.

JavaScript numbers are modelled as `Int`/`Rat` (all quantities involved are
integers or small decimal fractions such as `0.8`, far from any binary
floating-point rounding boundary); `Math.round` is modelled as
`fun q => Int.floor (q + 1/2)`, which agrees with JavaScript on non-negative
arguments. Regex built-ins of the matcher are abstracted as an explicit
`TextMatcher` record of match-count functions; the one regex whose concrete
semantics a claim depends on (the SRP rule) is additionally embedded as a
first-order regular expression evaluated by Brzozowski derivatives.
-/

namespace MCP

/-- Severity levels of `AnalysisIssue.severity` (`src/types/analysis.ts`). -/
inductive Severity where
  | critical
  | high
  | medium
  | low
  | good
  | info
deriving DecidableEq, Repr

/-- An `AnalysisIssue` restricted to the fields observed by the claims
(`category`, `issue`, `recommendation`, `severity`, `occurrences`); the
optional metadata fields (`explanation`, `designPattern`, `architectureLayer`,
`codeExample`, `resources`) are constant per rule and observed by no claim. -/
structure Issue where
  category : String
  issue : String
  recommendation : String
  severity : Severity
  occurrences : Nat
deriving DecidableEq, Repr

/-- The `Summary` record of per-severity counts. -/
structure Summary where
  total : Nat
  critical : Nat
  high : Nat
  medium : Nat
  low : Nat
  good : Nat
  info : Nat
deriving DecidableEq, Repr

/-- `severityWeights` table of `CodeAnalyzer.calculateScores`. -/
def severityWeights : Severity → Int
  | .critical => 25
  | .high => 15
  | .medium => 8
  | .low => 3
  | .good => -5
  | .info => 0

/-- `issues.reduce((penalty, issue) => penalty + severityWeights[issue.severity] * issue.occurrences, 0)`. -/
def totalPenalty (issues : List Issue) : Int :=
  issues.foldl (fun penalty issue => penalty + severityWeights issue.severity * issue.occurrences) 0

/-- JavaScript `Math.round` on a non-negative number: round half away from zero
equals `Int.floor (q + 1/2)` there. -/
def jsRound (q : Rat) : Int := Int.floor (q + 1/2)

/-- `Math.max(0, Math.min(100, q))`. -/
def jsClamp (q : Rat) : Rat := max 0 (min 100 q)

/-- `CodeAnalyzer.calculateScores`: `(architecture, cleanCode)` scores. -/
def calculateScores (issues : List Issue) : Int × Int :=
  if issues.length = 0 then (100, 100)
  else
    let architectureScore := jsClamp (100 - (totalPenalty issues : Rat))
    let cleanCodeScore := jsClamp (100 - (totalPenalty issues : Rat) * (8/10))
    (jsRound architectureScore, jsRound cleanCodeScore)

/-- The specification's `rawPenalty = Σ over issues (weight[severity] × occurrences)`,
written as a sum over the mapped list (independently of the `reduce` in the code). -/
def specRawPenalty (issues : List Issue) : Int :=
  (issues.map (fun issue => severityWeights issue.severity * (issue.occurrences : Int))).sum

theorem foldl_add_eq_sum (f : Issue → Int) (l : List Issue) (a : Int) :
    l.foldl (fun p i => p + f i) a = a + (l.map f).sum := by
  induction l generalizing a with
  | nil => simp
  | cons x xs ih => simp [List.foldl_cons, ih, add_assoc]

theorem totalPenalty_eq_spec (issues : List Issue) :
    totalPenalty issues = specRawPenalty issues := by
  simpa [totalPenalty, specRawPenalty] using
    foldl_add_eq_sum (fun i => severityWeights i.severity * (i.occurrences : Int)) issues 0

theorem jsRound_intCast (n : Int) : jsRound (n : Rat) = n := by
  rw [jsRound]
  apply Int.floor_eq_iff.mpr
  constructor
  · linarith
  · linarith

theorem jsRound_hundred : jsRound (100 : Rat) = 100 := by
  simpa using jsRound_intCast 100

theorem jsClamp_nonneg (q : Rat) : 0 ≤ jsClamp q := le_max_left 0 _

theorem jsClamp_le_hundred (q : Rat) : jsClamp q ≤ 100 :=
  max_le (by norm_num) (min_le_left _ _)

theorem jsRound_jsClamp_mem (q : Rat) : 0 ≤ jsRound (jsClamp q) ∧ jsRound (jsClamp q) ≤ 100 := by
  constructor
  · rw [jsRound]
    have h0 : (0 : Rat) ≤ jsClamp q + 1/2 := by
      have := jsClamp_nonneg q; linarith
    exact_mod_cast Int.floor_nonneg.mpr h0
  · rw [jsRound]
    have h1 : jsClamp q + 1/2 ≤ 100 + 1/2 := by
      have := jsClamp_le_hundred q; linarith
    calc Int.floor (jsClamp q + 1/2) ≤ Int.floor ((100 : Rat) + 1/2) := Int.floor_mono h1
    _ = 100 := by norm_num

/-- C1: for every Issue list, `calculateScores` returns
`architectureScore = round(clamp(100 − rawPenalty, 0, 100))` and
`cleanCodeScore = round(clamp(100 − rawPenalty × 0.8, 0, 100))` with
`rawPenalty = Σ weight[severity] × occurrences` over the fixed weight table
critical=25, high=15, medium=8, low=3, good=−5, info=0; the empty list yields
`(100, 100)`, and both scores always lie in `[0, 100]`. -/
theorem calculateScores_spec (issues : List Issue) :
    calculateScores issues =
      (jsRound (jsClamp (100 - (specRawPenalty issues : Rat))),
       jsRound (jsClamp (100 - (specRawPenalty issues : Rat) * (8/10)))) ∧
    (severityWeights .critical = 25 ∧ severityWeights .high = 15 ∧
     severityWeights .medium = 8 ∧ severityWeights .low = 3 ∧
     severityWeights .good = -5 ∧ severityWeights .info = 0) ∧
    calculateScores ([] : List Issue) = (100, 100) ∧
    (0 ≤ (calculateScores issues).1 ∧ (calculateScores issues).1 ≤ 100 ∧
     0 ≤ (calculateScores issues).2 ∧ (calculateScores issues).2 ≤ 100) := by
  have hempty : calculateScores ([] : List Issue) = (100, 100) := by
    simp [calculateScores]
  have hform : ∀ is : List Issue, calculateScores is =
      (jsRound (jsClamp (100 - (specRawPenalty is : Rat))),
       jsRound (jsClamp (100 - (specRawPenalty is : Rat) * (8/10)))) := by
    intro is
    by_cases h : is = []
    · subst h
      have hclamp : jsClamp (100 : Rat) = 100 := by
        simp [jsClamp]
      simp [calculateScores, specRawPenalty, hclamp, jsRound_hundred]
    · have hlen : ¬ is.length = 0 := by
        simpa [List.length_eq_zero] using h
      simp only [calculateScores, if_neg hlen, totalPenalty_eq_spec]
  refine ⟨hform issues, ⟨rfl, rfl, rfl, rfl, rfl, rfl⟩, hempty, ?_⟩
  rw [hform issues]
  exact ⟨(jsRound_jsClamp_mem _).1, (jsRound_jsClamp_mem _).2,
         (jsRound_jsClamp_mem _).1, (jsRound_jsClamp_mem _).2⟩

theorem jsClamp_eq_100_of_ge (q : Rat) (h : 100 ≤ q) : jsClamp q = 100 := by
  rw [jsClamp, min_eq_left h]
  exact max_eq_right (by norm_num)

theorem jsClamp_le_of_le (q c : Rat) (hq : q ≤ c) (hc : 0 ≤ c) : jsClamp q ≤ c :=
  max_le hc (le_trans (min_le_right _ _) hq)

theorem jsRound_le_99_of_le (q : Rat) (h : q ≤ 992/10) : jsRound (jsClamp q) ≤ 99 := by
  have h1 : jsClamp q ≤ 992/10 := jsClamp_le_of_le q _ h (by norm_num)
  have h2 : jsClamp q + 1/2 ≤ 992/10 + 1/2 := by linarith
  calc jsRound (jsClamp q) ≤ Int.floor ((992 : Rat)/10 + 1/2) := Int.floor_mono h2
  _ = 99 := by
        apply Int.floor_eq_iff.mpr
        norm_num

theorem score_eq_100_iff (p : Int) :
    (jsRound (jsClamp (100 - (p : Rat))) = 100 ↔ p ≤ 0) ∧
    (jsRound (jsClamp (100 - (p : Rat) * (8/10))) = 100 ↔ p ≤ 0) := by
  have harch : ∀ q : Rat, 100 ≤ q → jsRound (jsClamp q) = 100 := by
    intro q hq
    rw [jsClamp_eq_100_of_ge q hq, jsRound_hundred]
  have hpos1 : ¬ p ≤ 0 → jsRound (jsClamp (100 - (p : Rat))) ≤ 99 := by
    intro hp
    have h1 : (1 : Int) ≤ p := by omega
    have h1q : (1 : Rat) ≤ (p : Rat) := by exact_mod_cast h1
    apply jsRound_le_99_of_le
    linarith
  have hpos2 : ¬ p ≤ 0 → jsRound (jsClamp (100 - (p : Rat) * (8/10))) ≤ 99 := by
    intro hp
    have h1 : (1 : Int) ≤ p := by omega
    have h1q : (1 : Rat) ≤ (p : Rat) := by exact_mod_cast h1
    apply jsRound_le_99_of_le
    nlinarith
  constructor
  · constructor
    · intro h100
      by_contra hp
      have := hpos1 hp
      omega
    · intro hp
      apply harch
      have : (p : Rat) ≤ 0 := by exact_mod_cast hp
      linarith
  · constructor
    · intro h100
      by_contra hp
      have := hpos2 hp
      omega
    · intro hp
      apply harch
      have : (p : Rat) ≤ 0 := by exact_mod_cast hp
      nlinarith

/-- A `good`-severity finding as produced by the corpus (e.g. the CSS-Modules
rule of the React/Next.js patterns) when `includeGoodPractices` is on. -/
def goodPracticeIssue : Issue :=
  { category := "nextjsPatterns"
  , issue := "CSS Modules detectados"
  , recommendation := "Buena práctica: Usando CSS Modules para estilos aislados"
  , severity := .good
  , occurrences := 1 }

/-- A `critical` corpus finding whose text mentions none of the suggestion
trigger substrings (the domain-entity rule of the clean-architecture patterns). -/
def domainEntityIssue : Issue :=
  { category := "domainLayer"
  , issue := "Entidad de dominio con dependencias externas"
  , recommendation := "Las entidades de dominio no deben depender de librerías externas"
  , severity := .critical
  , occurrences := 1 }

/-- C5 counterexample: a non-empty Issue list (one `good`-severity issue,
penalty weight −5) on which `calculateScores` still returns 100 for both
scores, refuting "score = 100 iff the list is empty". -/
theorem calculateScores_nonempty_100_counterexample :
    calculateScores [goodPracticeIssue] = (100, 100) ∧
      ([goodPracticeIssue] : List Issue) ≠ [] := by
  constructor
  · have hp : totalPenalty [goodPracticeIssue] = -5 := by decide
    have h1 : jsClamp (105 : Rat) = 100 := jsClamp_eq_100_of_ge _ (by norm_num)
    have h2 : jsClamp (104 : Rat) = 100 := jsClamp_eq_100_of_ge _ (by norm_num)
    simp only [calculateScores, List.length_cons, List.length_nil, hp]
    norm_num [h1, h2, jsRound_hundred]
  · exact List.cons_ne_nil _ _

/-- C5 (amended): each score equals 100 iff the total penalty is ≤ 0; the
empty list scores 100, and every non-empty list all of whose issues have a
positive-weight severity (critical/high/medium/low) and `occurrences ≥ 1`
scores strictly below 100 — but non-empty lists of `good`/`info` issues can
still score 100. -/
theorem calculateScores_hundred_iff (issues : List Issue) :
    ((calculateScores issues).1 = 100 ↔ totalPenalty issues ≤ 0) ∧
    ((calculateScores issues).2 = 100 ↔ totalPenalty issues ≤ 0) ∧
    (issues ≠ [] →
      (∀ i ∈ issues,
        (i.severity = .critical ∨ i.severity = .high ∨
         i.severity = .medium ∨ i.severity = .low) ∧ 1 ≤ i.occurrences) →
      (calculateScores issues).1 < 100 ∧ (calculateScores issues).2 < 100) := by
  have hform := (calculateScores_spec issues).1
  have hiff := score_eq_100_iff (specRawPenalty issues)
  have hps : totalPenalty issues = specRawPenalty issues := totalPenalty_eq_spec issues
  refine ⟨?_, ?_, ?_⟩
  · rw [hform, hps]
    exact hiff.1
  · rw [hform, hps]
    exact hiff.2
  · intro hne hall
    have hpen : 1 ≤ specRawPenalty issues := by
      rw [← hps]
      match issues, hne with
      | i :: rest, _ =>
        have hterm : ∀ j ∈ (i :: rest : List Issue),
            (1 : Int) ≤ severityWeights j.severity * j.occurrences := by
          intro j hj
          obtain ⟨hsev, hocc⟩ := hall j hj
          have hw : (1 : Int) ≤ severityWeights j.severity := by
            rcases hsev with h | h | h | h <;> rw [h] <;> norm_num [severityWeights]
          have hoccZ : (1 : Int) ≤ (j.occurrences : Int) := by exact_mod_cast hocc
          nlinarith
        have hsum : ∀ l : List Issue, (∀ j ∈ l, (1 : Int) ≤ severityWeights j.severity * j.occurrences) →
            (0 : Int) ≤ (l.map (fun j => severityWeights j.severity * (j.occurrences : Int))).sum := by
          intro l hl
          induction l with
          | nil => simp
          | cons x xs ih =>
            simp only [List.map_cons, List.sum_cons]
            have hx := hl x (List.mem_cons_self x xs)
            have hxs := ih (fun j hj => hl j (List.mem_cons_of_mem x hj))
            omega
        rw [totalPenalty_eq_spec, specRawPenalty]
        simp only [List.map_cons, List.sum_cons]
        have hx := hterm i (List.mem_cons_self i rest)
        have hrest := hsum rest (fun j hj => hterm j (List.mem_cons_of_mem i hj))
        omega
    have hnot : ¬ specRawPenalty issues ≤ 0 := by omega
    rw [hform]
    constructor
    · have h99 : jsRound (jsClamp (100 - (specRawPenalty issues : Rat))) ≤ 99 := by
        apply jsRound_le_99_of_le
        have : (1 : Rat) ≤ (specRawPenalty issues : Rat) := by exact_mod_cast hpen
        linarith
      omega
    · have h99 : jsRound (jsClamp (100 - (specRawPenalty issues : Rat) * (8/10))) ≤ 99 := by
        apply jsRound_le_99_of_le
        have : (1 : Rat) ≤ (specRawPenalty issues : Rat) := by exact_mod_cast hpen
        nlinarith
      omega

/-- C5 witness: the amended theorem applied to the concrete one-critical-issue
list, discharging both hypotheses. -/
theorem calculateScores_hundred_iff_witness :
    (calculateScores [domainEntityIssue]).1 < 100 ∧
      (calculateScores [domainEntityIssue]).2 < 100 :=
  (calculateScores_hundred_iff [domainEntityIssue]).2.2
    (List.cons_ne_nil _ _) (by decide)

/-! ## In-memory TTL cache (`src/utils/cache.ts`) -/

/-- A `CacheEntry<T>` as stored by `MemoryCache.set`. -/
structure CacheEntry (α : Type) where
  data : α
  timestamp : Int
  ttl : Int
deriving DecidableEq, Repr

/-- The cache's backing `Map<string, CacheEntry>`, modelled as a lookup
function (JavaScript `Map.set` replaces the previous binding of a key). -/
def MemoryCache (α : Type) : Type := String → Option (CacheEntry α)

/-- The empty cache. -/
def emptyCache (α : Type) : MemoryCache α := fun _ => none

/-- `MemoryCache.set(key, data, ttl)` executed at time `now` (`Date.now()`). -/
def cacheSet (c : MemoryCache α) (key : String) (data : α) (ttl : Int) (now : Int) :
    MemoryCache α :=
  fun k => if k = key then some { data := data, timestamp := now, ttl := ttl } else c k

/-- `MemoryCache.get(key)` executed at time `now`: returns the hit (if any)
and the updated map (an expired entry is deleted on read). -/
def cacheGet (c : MemoryCache α) (key : String) (now : Int) :
    Option α × MemoryCache α :=
  match c key with
  | none => (none, c)
  | some entry =>
    if now - entry.timestamp > entry.ttl then
      (none, fun k => if k = key then none else c k)
    else
      (some entry.data, c)

/-- C2: after `set(key, value, ttl)` at time `now`, a `get(key)` at time
`later` returns the stored value while `later − now ≤ ttl`, and a cache miss
(`null`) once `later − now > ttl`. -/
theorem cache_ttl_roundtrip {α : Type} (c : MemoryCache α) (key : String) (value : α)
    (ttl now later : Int) :
    (later - now ≤ ttl →
      (cacheGet (cacheSet c key value ttl now) key later).1 = some value) ∧
    (later - now > ttl →
      (cacheGet (cacheSet c key value ttl now) key later).1 = none) := by
  have hkey : cacheSet c key value ttl now key =
      some { data := value, timestamp := now, ttl := ttl } := by
    simp [cacheSet]
  constructor
  · intro h
    simp only [cacheGet, hkey]
    rw [if_neg (by omega)]
  · intro h
    simp only [cacheGet, hkey]
    rw [if_pos (by omega)]

/-- C2 witness: store `7` with TTL 10 at time 0; reading at time 5 hits,
reading at time 11 misses. -/
theorem cache_ttl_roundtrip_witness :
    (cacheGet (cacheSet (emptyCache Nat) "k" 7 10 0) "k" 5).1 = some 7 ∧
    (cacheGet (cacheSet (emptyCache Nat) "k" 7 10 0) "k" 11).1 = none :=
  ⟨(cache_ttl_roundtrip (emptyCache Nat) "k" 7 10 0 5).1 (by norm_num),
   (cache_ttl_roundtrip (emptyCache Nat) "k" 7 10 0 11).2 (by norm_num)⟩

/-! ## Error taxonomy and retry handler (`src/utils/errors.ts`) -/

/-- An `MCPServerError` (and its subclasses): `message`, `code`, `retryable`
fixed at construction, plus the `statusCode` carried by `GitHubAPIError`
(absent on the other subclasses). The `details`/`rateLimitInfo` payloads are
observed by no claim. -/
structure MCPError where
  message : String
  code : String
  retryable : Bool
  statusCode : Option Nat
deriving DecidableEq, Repr

/-- A JavaScript error reaching the handler: either an `MCPServerError`
instance or a plain `Error` carrying only its message. -/
inductive JsError where
  | mcp (e : MCPError)
  | plain (message : String)
deriving DecidableEq, Repr

/-- `c :: rest` starts with the pattern? -/
def charsHavePrefix : List Char → List Char → Bool
  | [], _ => true
  | _ :: _, [] => false
  | p :: ps, c :: cs => p = c && charsHavePrefix ps cs

/-- Some suffix of the character list starts with the pattern. -/
def charsContain (pat : List Char) : List Char → Bool
  | [] => charsHavePrefix pat []
  | c :: cs => charsHavePrefix pat (c :: cs) || charsContain pat cs

/-- JavaScript `String.prototype.includes`. -/
def strIncludes (s sub : String) : Bool := charsContain sub.toList s.toList

/-- The `GitHubAPIError` constructor: `retryable = statusCode ? statusCode >= 500 || statusCode === 429 : false`
(a missing — or zero, hence falsy — status yields `false`; `0` is not ≥ 500
and not 429, so the plain test below agrees with the truthiness test). -/
def mkGitHubAPIError (message : String) (statusCode : Option Nat) : MCPError :=
  { message := message
  , code := "GITHUB_API_ERROR"
  , retryable := match statusCode with
      | some s => decide (500 ≤ s) || decide (s = 429)
      | none => false
  , statusCode := statusCode }

/-- `ErrorHandler.isRetryable`. -/
def isRetryable : JsError → Bool
  | .mcp e => e.retryable
  | .plain message =>
      strIncludes message "ECONNRESET" || strIncludes message "ETIMEDOUT" ||
        strIncludes message "ENOTFOUND"

/-- `ErrorHandler.wrapError`. -/
def wrapError (err : JsError) (context : String) : MCPError :=
  match err with
  | .mcp e => e
  | .plain message =>
      { message := "Unexpected error in " ++ context ++ ": " ++ message
      , code := "UNEXPECTED_ERROR"
      , retryable := false
      , statusCode := none }

/-- `ErrorHandler.calculateDelay`: `min(baseDelay * 2^(attempt−1), 30000)`. -/
def calculateDelay (baseDelay : Int) (attempt : Nat) : Int :=
  min (baseDelay * 2 ^ (attempt - 1)) 30000

/-- The attempt loop of `ErrorHandler.handleWithRetry`: `attempt` runs from 1
to `maxRetries + 1`; a failed attempt breaks out (and the last error is
wrapped and thrown) when `attempt > maxRetries || !isRetryable(lastError)`.
The second component instruments the loop with the number of operation
invocations performed (the source returns only the value). -/
def retryLoop (op : Nat → Except JsError α) (maxRetries attempt : Nat) :
    Except MCPError α × Nat :=
  match op attempt with
  | .ok v => (.ok v, attempt)
  | .error e =>
    if maxRetries < attempt || !isRetryable e then
      (.error (wrapError e ""), attempt)
    else
      retryLoop op maxRetries (attempt + 1)
termination_by maxRetries + 1 - attempt
decreasing_by
  simp only [Bool.or_eq_true, decide_eq_true_eq, not_or] at *
  omega

/-- `ErrorHandler.handleWithRetry` (context string elided: it only decorates
log lines and the wrap message). -/
def handleWithRetry (op : Nat → Except JsError α) (maxRetries : Nat) :
    Except MCPError α × Nat :=
  retryLoop op maxRetries 1

/-- C3: a `GitHubAPIError` is retryable iff its status code is ≥ 500 or 429,
and an operation whose first attempt fails with a 404 `GitHubAPIError` is
given exactly one attempt by `handleWithRetry`, which surfaces that same
error. -/
theorem github_retry_spec {α : Type} :
    (∀ (msg : String) (sc : Option Nat),
      (mkGitHubAPIError msg sc).retryable = true ↔
        ∃ code, sc = some code ∧ (500 ≤ code ∨ code = 429)) ∧
    (∀ (op : Nat → Except JsError α) (maxRetries : Nat) (msg : String),
      op 1 = .error (.mcp (mkGitHubAPIError msg (some 404))) →
      handleWithRetry op maxRetries =
        (.error (mkGitHubAPIError msg (some 404)), 1)) := by
  constructor
  · intro msg sc
    cases sc with
    | none => simp [mkGitHubAPIError]
    | some code =>
      simp only [mkGitHubAPIError, Bool.or_eq_true, decide_eq_true_eq]
      constructor
      · intro h
        exact ⟨code, rfl, h⟩
      · rintro ⟨c, hc, h⟩
        cases hc
        exact h
  · intro op maxRetries msg hop
    have hnot : isRetryable (.mcp (mkGitHubAPIError msg (some 404))) = false := by
      simp [isRetryable, mkGitHubAPIError]
    rw [handleWithRetry, retryLoop, hop]
    simp only [hnot, Bool.not_false, Bool.or_true, if_true, wrapError]

/-- C3 witness: a constantly-404-failing operation is attempted once and the
404 error surfaces unchanged, even with `maxRetries = 3`. -/
theorem github_retry_spec_witness :
    handleWithRetry
        (fun _ => (.error (.mcp (mkGitHubAPIError "Resource not found: repo" (some 404))) :
          Except JsError Nat)) 3 =
      (.error (mkGitHubAPIError "Resource not found: repo" (some 404)), 1) :=
  (github_retry_spec (α := Nat)).2 _ 3 "Resource not found: repo" rfl

/-! ## The analyzer (`src/analyzers/code-analyzer.ts`) -/

/-- An `AnalysisPattern` of the rule corpus restricted to the fields the
claims observe; the regex itself is abstracted (see `TextMatcher`). -/
structure Rule where
  issue : String
  recommendation : String
  severity : Severity
deriving DecidableEq, Repr

/-- The corpus `this.patterns`: category name (the object key) paired with
that category's rule list. -/
def Corpus : Type := List (String × List Rule)

/-- `AnalysisOptions` (fields the analyzer reads). -/
structure AnalysisOptions where
  maxFileSize : Option Nat := none
  enabledCategories : Option (List String) := none
  includeGoodPractices : Bool := false

/-- The JavaScript regex built-ins used by the analyzer, abstracted as
match-count functions of the file content:
* `ruleMatch content rule` — `content.match(rule.pattern)` as `some` match
  count (`none` for a null result or a caught per-rule exception);
* `shortVarNames` — length of `content.match(/\b[a-z]\b(?!\s*[=>:|,)\]])/g)`;
* `functionLines` — per-match `func.split('\n').length` for the
  function-shaped matches of the long-function pattern;
* `commentLines` — `(content.match(comment regex) || []).length`;
* `codeLines` — count of non-blank lines not starting with a line comment;
* `magicNumbers` — length of `content.match(/\b\d\x7b2,\x7d\b(?![.]\d)/g)`
  after filtering out the HTTP-status allow-list. -/
structure TextMatcher where
  ruleMatch : String → Rule → Option Nat
  shortVarNames : String → Option Nat
  functionLines : String → List Nat
  commentLines : String → Nat
  codeLines : String → Nat
  magicNumbers : String → Option Nat

/-- The issues contributed by one corpus rule inside `analyzePatterns`:
guard `matches && matches.length > 0`, skip `good` rules unless
`includeGoodPractices`, else push one Issue with `occurrences = matches.length`. -/
def ruleIssues (categoryName : String) (rule : Rule) (matchResult : Option Nat)
    (includeGoodPractices : Bool) : List Issue :=
  match matchResult with
  | none => []
  | some n =>
    if n > 0 then
      if rule.severity = .good && !includeGoodPractices then []
      else
        [{ category := categoryName
         , issue := rule.issue
         , recommendation := rule.recommendation
         , severity := rule.severity
         , occurrences := n }]
    else []

/-- `CodeAnalyzer.analyzeCleanCode`: the four fixed heuristics, in source
order (`0.3` is `3/10`; `0.8`, `0.3` and all counts are exact in `Rat`). -/
def analyzeCleanCode (m : TextMatcher) (content : String) : List Issue :=
  (match m.shortVarNames content with
   | some n =>
     if n > 5 then
       [{ category := "cleanCode"
        , issue := "Variables con nombres de una letra"
        , recommendation := "Usa nombres descriptivos que revelen intención"
        , severity := .medium
        , occurrences := n }]
     else []
   | none => []) ++
  ((m.functionLines content).flatMap fun lines =>
    if lines > 25 then
      [{ category := "cleanCode"
       , issue := "Función con " ++ toString lines ++ " líneas"
       , recommendation := "Las funciones deben hacer una sola cosa. Divide en funciones más pequeñas"
       , severity := if lines > 50 then .high else .medium
       , occurrences := 1 }]
    else []) ++
  (if ((m.commentLines content : Rat) > (m.codeLines content : Rat) * (3/10)) ∧
      m.commentLines content > 10 then
     [{ category := "cleanCode"
      , issue := "Demasiados comentarios"
      , recommendation := "El código debe ser auto-explicativo. Refactoriza en lugar de comentar"
      , severity := .low
      , occurrences := m.commentLines content }]
   else []) ++
  (match m.magicNumbers content with
   | some n =>
     if n > 3 then
       [{ category := "cleanCode"
        , issue := "Números mágicos detectados"
        , recommendation := "Usa constantes con nombres descriptivos"
        , severity := .medium
        , occurrences := n }]
     else []
   | none => [])

/-- `enabledCategories = options.enabledCategories || Object.keys(this.patterns)`. -/
def enabledCategoriesOf (opts : AnalysisOptions) (corpus : Corpus) : List String :=
  match opts.enabledCategories with
  | some cats => cats
  | none => corpus.map (·.1)

/-- `CodeAnalyzer.analyzePatterns`: corpus rules per enabled category, then
the Clean-Code heuristics appended. -/
def analyzePatterns (m : TextMatcher) (corpus : Corpus) (content : String)
    (opts : AnalysisOptions) : List Issue :=
  (corpus.flatMap fun cat =>
    if (enabledCategoriesOf opts corpus).contains cat.1 then
      cat.2.flatMap fun rule =>
        ruleIssues cat.1 rule (m.ruleMatch content rule) opts.includeGoodPractices
    else []) ++
  analyzeCleanCode m content

/-- Bump one severity bucket of a `Summary` (`summary[issue.severity]++`). -/
def bumpSummary (s : Summary) : Severity → Summary
  | .critical => { s with critical := s.critical + 1 }
  | .high => { s with high := s.high + 1 }
  | .medium => { s with medium := s.medium + 1 }
  | .low => { s with low := s.low + 1 }
  | .good => { s with good := s.good + 1 }
  | .info => { s with info := s.info + 1 }

/-- `CodeAnalyzer.generateSummary`. -/
def generateSummary (issues : List Issue) : Summary :=
  issues.foldl (fun s i => bumpSummary s i.severity)
    { total := issues.length, critical := 0, high := 0, medium := 0, low := 0
    , good := 0, info := 0 }

/-- An `ArchitectureSuggestion` restricted to `title` and `pattern`; the
`description`/`benefit`/`implementation`/`example` fields are constant
literal strings observed by no claim. -/
structure ArchitectureSuggestion where
  title : String
  pattern : String
deriving DecidableEq, Repr

/-- The SRP suggestion pushed by `CodeAnalyzer.generateSuggestions`. -/
def srpSuggestion : ArchitectureSuggestion :=
  { title := "Aplicar Single Responsibility Principle"
  , pattern := "Single Responsibility Principle" }

/-- The Repository-Pattern suggestion pushed by `CodeAnalyzer.generateSuggestions`. -/
def repositorySuggestion : ArchitectureSuggestion :=
  { title := "Implementar Repository Pattern"
  , pattern := "Repository Pattern" }

/-- `CodeAnalyzer.generateSuggestions` (the `filepath` argument is unused in
the source body as well). -/
def generateSuggestions (issues : List Issue) (_filepath : String) :
    List ArchitectureSuggestion :=
  let srpViolations := issues.filter fun i =>
    strIncludes i.issue "SRP" || strIncludes i.issue "múltiples responsabilidades"
  let httpIssues := issues.filter fun i =>
    strIncludes i.issue "HTTP directa" || strIncludes i.issue "fetch" ||
      strIncludes i.issue "axios"
  (if srpViolations.length > 0 then [srpSuggestion] else []) ++
  (if httpIssues.length > 0 then [repositorySuggestion] else [])

/-- The fixed Issue of the oversized-file short-circuit in `analyzeFile`. -/
def fileTooLargeIssue : Issue :=
  { category := "fileSize"
  , issue := "Archivo demasiado grande para analizar"
  , recommendation := "Considera dividir este archivo en módulos más pequeños"
  , severity := .medium
  , occurrences := 1 }

/-- `options.maxFileSize && content.length > options.maxFileSize` — a zero
`maxFileSize` is falsy in the source, so it never triggers the short-circuit. -/
def exceedsMaxFileSize (opts : AnalysisOptions) (content : String) : Bool :=
  match opts.maxFileSize with
  | none => false
  | some m => m != 0 && content.length > m

/-- A `FileAnalysisResult`. -/
structure FileAnalysisResult where
  file : String
  totalIssues : Nat
  issues : List Issue
  summary : Summary
  architectureScore : Int
  cleanCodeScore : Int
  suggestions : List ArchitectureSuggestion
deriving DecidableEq, Repr

/-- `CodeAnalyzer.analyzeFile` (the architecture-layer detection only feeds
the elided per-issue `architectureLayer` metadata field and is omitted). -/
def analyzeFile (m : TextMatcher) (corpus : Corpus) (filepath content : String)
    (opts : AnalysisOptions) : FileAnalysisResult :=
  if exceedsMaxFileSize opts content then
    { file := filepath
    , totalIssues := 0
    , issues := [fileTooLargeIssue]
    , summary := { total := 1, critical := 0, high := 0, medium := 1, low := 0
                 , good := 0, info := 0 }
    , architectureScore := 50
    , cleanCodeScore := 50
    , suggestions := [] }
  else
    let issues := analyzePatterns m corpus content opts
    { file := filepath
    , totalIssues := issues.length
    , issues := issues
    , summary := generateSummary issues
    , architectureScore := (calculateScores issues).1
    , cleanCodeScore := (calculateScores issues).2
    , suggestions := generateSuggestions issues filepath }

/-- A degenerate matcher (every regex built-in finds nothing); used only to
instantiate universally quantified theorems on concrete inputs. -/
def trivialMatcher : TextMatcher :=
  { ruleMatch := fun _ _ => none
  , shortVarNames := fun _ => none
  , functionLines := fun _ => []
  , commentLines := fun _ => 0
  , codeLines := fun _ => 0
  , magicNumbers := fun _ => none }

theorem ruleIssues_occ (cat : String) (rule : Rule) (mr : Option Nat) (ig : Bool)
    (i : Issue) (hi : i ∈ ruleIssues cat rule mr ig) : 1 ≤ i.occurrences := by
  unfold ruleIssues at hi
  split at hi
  · simp at hi
  · split at hi
    · split at hi
      · simp at hi
      · next n _ hn _ =>
          simp only [List.mem_singleton] at hi
          subst hi
          exact hn
    · simp at hi

theorem analyzeCleanCode_occ (m : TextMatcher) (content : String)
    (i : Issue) (hi : i ∈ analyzeCleanCode m content) : 1 ≤ i.occurrences := by
  unfold analyzeCleanCode at hi
  simp only [List.mem_append] at hi
  rcases hi with ((h | h) | h) | h
  · split at h
    · next n _ =>
        split at h
        · next hn =>
            simp only [List.mem_singleton] at h
            subst h
            show 1 ≤ n
            omega
        · simp at h
    · simp at h
  · rw [List.mem_flatMap] at h
    obtain ⟨lines, _, hmem⟩ := h
    split at hmem
    · simp only [List.mem_singleton] at hmem
      subst hmem
      exact Nat.le_refl 1
    · simp at hmem
  · split at h
    · next hc =>
        simp only [List.mem_singleton] at h
        subst h
        show 1 ≤ m.commentLines content
        omega
    · simp at h
  · split at h
    · next n _ =>
        split at h
        · next hn =>
            simp only [List.mem_singleton] at h
            subst h
            show 1 ≤ n
            omega
        · simp at h
    · simp at h

theorem analyzePatterns_occ (m : TextMatcher) (corpus : Corpus) (content : String)
    (opts : AnalysisOptions) (i : Issue) (hi : i ∈ analyzePatterns m corpus content opts) :
    1 ≤ i.occurrences := by
  unfold analyzePatterns at hi
  rw [List.mem_append] at hi
  rcases hi with h | h
  · rw [List.mem_flatMap] at h
    obtain ⟨cat, _, hmem⟩ := h
    by_cases he : (enabledCategoriesOf opts corpus).contains cat.1
    · rw [if_pos he] at hmem
      rw [List.mem_flatMap] at hmem
      obtain ⟨rule, _, hri⟩ := hmem
      exact ruleIssues_occ cat.1 rule _ _ i hri
    · rw [if_neg he] at hmem
      simp at hmem
  · exact analyzeCleanCode_occ m content i h

theorem bumpSummary_total (s : Summary) (sev : Severity) :
    (bumpSummary s sev).total = s.total := by
  cases sev <;> rfl

theorem foldl_bump_total (l : List Issue) (s : Summary) :
    (l.foldl (fun s i => bumpSummary s i.severity) s).total = s.total := by
  induction l generalizing s with
  | nil => rfl
  | cons x xs ih => rw [List.foldl_cons, ih, bumpSummary_total]

theorem generateSummary_total (issues : List Issue) :
    (generateSummary issues).total = issues.length := by
  rw [generateSummary, foldl_bump_total]

/-- C7: every `FileAnalysisResult` produced by `analyzeFile` — under any
matcher, corpus and options — has `occurrences ≥ 1` on each of its issues and
`summary.total = issues.length`. -/
theorem analyzeFile_wellformed (m : TextMatcher) (corpus : Corpus)
    (filepath content : String) (opts : AnalysisOptions) :
    (∀ i ∈ (analyzeFile m corpus filepath content opts).issues, 1 ≤ i.occurrences) ∧
    (analyzeFile m corpus filepath content opts).summary.total =
      (analyzeFile m corpus filepath content opts).issues.length := by
  unfold analyzeFile
  by_cases h : exceedsMaxFileSize opts content = true
  · rw [if_pos h]
    constructor
    · intro i hi
      simp only [List.mem_singleton] at hi
      subst hi
      decide
    · rfl
  · rw [if_neg h]
    constructor
    · intro i hi
      exact analyzePatterns_occ m corpus content opts i hi
    · exact generateSummary_total _

/-- C7 witness: the invariant applied to a concrete oversized file (content
of length 4 against `maxFileSize = 3`), whose single issue is
`fileTooLargeIssue`. -/
theorem analyzeFile_wellformed_witness :
    1 ≤ fileTooLargeIssue.occurrences ∧
    (analyzeFile trivialMatcher [] "big.ts" "aaaa"
        { maxFileSize := some 3 }).summary.total =
      (analyzeFile trivialMatcher [] "big.ts" "aaaa"
        { maxFileSize := some 3 }).issues.length :=
  ⟨(analyzeFile_wellformed trivialMatcher [] "big.ts" "aaaa"
      { maxFileSize := some 3 }).1 fileTooLargeIssue (by decide),
   (analyzeFile_wellformed trivialMatcher [] "big.ts" "aaaa"
      { maxFileSize := some 3 }).2⟩

/-- The SRP Issue as materialized from the first `solidPrinciples` rule. -/
def srpViolationIssue (occurrences : Nat) : Issue :=
  { category := "solidPrinciples"
  , issue := "Violación del SRP (Single Responsibility Principle)"
  , recommendation := "Esta clase tiene múltiples responsabilidades. Sepáralas en clases diferentes"
  , severity := .critical
  , occurrences := occurrences }

/-- C9 counterexample: an Issue list containing a critical-severity issue (the
domain-entity rule) on which `generateSuggestions` emits no suggestion at all —
in particular no "Layered Architecture" suggestion. -/
theorem generateSuggestions_critical_counterexample :
    domainEntityIssue.severity = .critical ∧
    generateSuggestions [domainEntityIssue] "src/entities/User.ts" = [] := by
  constructor
  · rfl
  · decide

/-- C9 (amended): `CodeAnalyzer.generateSuggestions` emits only the SRP
suggestion (iff some issue's text contains "SRP" or "múltiples
responsabilidades") and the Repository-Pattern suggestion (iff some issue's
text contains "HTTP directa", "fetch" or "axios"); critical severity alone
triggers nothing, and no Layered-Architecture suggestion exists in this
generator. -/
theorem generateSuggestions_only_srp_or_repository (issues : List Issue) (filepath : String) :
    (∀ s ∈ generateSuggestions issues filepath,
      s = srpSuggestion ∨ s = repositorySuggestion) ∧
    (srpSuggestion ∈ generateSuggestions issues filepath ↔
      ∃ i ∈ issues, (strIncludes i.issue "SRP" ||
        strIncludes i.issue "múltiples responsabilidades") = true) ∧
    (repositorySuggestion ∈ generateSuggestions issues filepath ↔
      ∃ i ∈ issues, (strIncludes i.issue "HTTP directa" || strIncludes i.issue "fetch" ||
        strIncludes i.issue "axios") = true) := by
  have hne : srpSuggestion ≠ repositorySuggestion := by decide
  unfold generateSuggestions
  simp only [List.mem_append]
  have hfilter : ∀ (p : Issue → Bool),
      (0 < (issues.filter p).length ↔ ∃ i ∈ issues, p i = true) := by
    intro p
    rw [List.length_pos]
    constructor
    · intro hne2
      obtain ⟨x, hx⟩ := List.exists_mem_of_ne_nil _ hne2
      rw [List.mem_filter] at hx
      exact ⟨x, hx.1, hx.2⟩
    · rintro ⟨i, hi, hp⟩
      intro hnil
      have : i ∈ issues.filter (fun i => p i) := List.mem_filter.mpr ⟨hi, hp⟩
      rw [hnil] at this
      simp at this
  refine ⟨?_, ?_, ?_⟩
  · intro s hs
    rcases hs with h | h
    · split at h
      · simp only [List.mem_singleton] at h
        exact Or.inl h
      · simp at h
    · split at h
      · simp only [List.mem_singleton] at h
        exact Or.inr h
      · simp at h
  · constructor
    · intro hmem
      rcases hmem with h | h
      · split at h
        · next hlen =>
            exact (hfilter _).mp (by omega)
        · simp at h
      · split at h
        · simp only [List.mem_singleton] at h
          exact absurd h hne
        · simp at h
    · intro hex
      left
      rw [if_pos (by have := (hfilter _).mpr hex; omega)]
      exact List.mem_singleton.mpr rfl
  · constructor
    · intro hmem
      rcases hmem with h | h
      · split at h
        · simp only [List.mem_singleton] at h
          exact absurd h.symm hne
        · simp at h
      · split at h
        · next hlen =>
            exact (hfilter _).mp (by omega)
        · simp at h
    · intro hex
      right
      rw [if_pos (by have := (hfilter _).mpr hex; omega)]
      exact List.mem_singleton.mpr rfl

/-- C9 witness: the amended theorem applied to a singleton SRP-violation list:
its text contains "SRP", so the SRP suggestion is emitted. -/
theorem generateSuggestions_only_srp_or_repository_witness :
    srpSuggestion ∈ generateSuggestions [srpViolationIssue 2] "src/services/user.ts" :=
  (generateSuggestions_only_srp_or_repository [srpViolationIssue 2]
      "src/services/user.ts").2.1.mpr ⟨srpViolationIssue 2, by decide, by decide⟩

/-- C10: when `maxFileSize` is set (non-zero — `0` is falsy in the source's
truthiness test) and the content is strictly longer, `analyzeFile`
short-circuits to the fixed oversized-file result: one medium issue with
`occurrences = 1`, `summary.total = 1`, both scores 50, no suggestions, and
`totalIssues = 0 ≠ issues.length = 1`. -/
theorem analyzeFile_too_large (m : TextMatcher) (corpus : Corpus)
    (filepath content : String) (opts : AnalysisOptions) (mfs : Nat)
    (h1 : opts.maxFileSize = some mfs) (h2 : 0 < mfs) (h3 : mfs < content.length) :
    analyzeFile m corpus filepath content opts =
      { file := filepath
      , totalIssues := 0
      , issues := [fileTooLargeIssue]
      , summary := { total := 1, critical := 0, high := 0, medium := 1, low := 0
                   , good := 0, info := 0 }
      , architectureScore := 50
      , cleanCodeScore := 50
      , suggestions := [] } ∧
    (analyzeFile m corpus filepath content opts).totalIssues ≠
      (analyzeFile m corpus filepath content opts).issues.length := by
  have hex : exceedsMaxFileSize opts content = true := by
    rw [exceedsMaxFileSize, h1]
    simp only [Bool.and_eq_true, bne_iff_ne, ne_eq, decide_eq_true_eq]
    omega
  constructor
  · rw [analyzeFile, if_pos hex]
  · rw [analyzeFile, if_pos hex]
    simp

/-- C10 witness: a 4-character file against `maxFileSize = 3`. -/
theorem analyzeFile_too_large_witness :
    analyzeFile trivialMatcher [] "huge.tsx" "abcd" { maxFileSize := some 3 } =
      { file := "huge.tsx"
      , totalIssues := 0
      , issues := [fileTooLargeIssue]
      , summary := { total := 1, critical := 0, high := 0, medium := 1, low := 0
                   , good := 0, info := 0 }
      , architectureScore := 50
      , cleanCodeScore := 50
      , suggestions := [] } :=
  (analyzeFile_too_large trivialMatcher [] "huge.tsx" "abcd"
      { maxFileSize := some 3 } 3 rfl (by norm_num) (by decide)).1

/-! ## Repository-level aggregation (`src/services/github.ts`) -/

/-- `calculateOverallScore`: `(architecture, cleanCode, overall)`; averages of
the per-file scores, each rounded; `(100, 100, 100)` for an empty result list. -/
def calculateOverallScore (results : List FileAnalysisResult) : Int × Int × Int :=
  if results.length = 0 then (100, 100, 100)
  else
    let avgArchitecture : Rat :=
      ((results.foldl (fun sum r => sum + r.architectureScore) 0 : Int) : Rat) /
        (results.length : Rat)
    let avgCleanCode : Rat :=
      ((results.foldl (fun sum r => sum + r.cleanCodeScore) 0 : Int) : Rat) /
        (results.length : Rat)
    let overall : Rat := (avgArchitecture + avgCleanCode) / 2
    (jsRound avgArchitecture, jsRound avgCleanCode, jsRound overall)

/-- `consolidateSummary`: the `reduce` accumulating every severity bucket
(`info` is `result.summary.info || 0` in the source; the field is always a
number here, so the fallback is the identity). -/
def consolidateSummary (results : List FileAnalysisResult) : Summary :=
  results.foldl
    (fun acc result =>
      { total := acc.total + result.summary.total
      , critical := acc.critical + result.summary.critical
      , high := acc.high + result.summary.high
      , medium := acc.medium + result.summary.medium
      , low := acc.low + result.summary.low
      , good := acc.good + result.summary.good
      , info := acc.info + result.summary.info })
    { total := 0, critical := 0, high := 0, medium := 0, low := 0, good := 0, info := 0 }

/-- The specification's elementwise sum of the per-file summaries. -/
def specSummarySum (results : List FileAnalysisResult) : Summary :=
  { total := (results.map (fun r => r.summary.total)).sum
  , critical := (results.map (fun r => r.summary.critical)).sum
  , high := (results.map (fun r => r.summary.high)).sum
  , medium := (results.map (fun r => r.summary.medium)).sum
  , low := (results.map (fun r => r.summary.low)).sum
  , good := (results.map (fun r => r.summary.good)).sum
  , info := (results.map (fun r => r.summary.info)).sum }

/-- The specification's arithmetic mean of the per-file architecture scores. -/
def specMeanArchitecture (results : List FileAnalysisResult) : Rat :=
  (((results.map (fun r => r.architectureScore)).sum : Int) : Rat) /
    (results.length : Rat)

theorem foldl_add_eq_sum_nat (f : FileAnalysisResult → Nat)
    (l : List FileAnalysisResult) (a : Nat) :
    l.foldl (fun p r => p + f r) a = a + (l.map f).sum := by
  induction l generalizing a with
  | nil => simp
  | cons x xs ih => simp [List.foldl_cons, ih, Nat.add_assoc]

theorem foldl_add_eq_sum_int (f : FileAnalysisResult → Int)
    (l : List FileAnalysisResult) (a : Int) :
    l.foldl (fun p r => p + f r) a = a + (l.map f).sum := by
  induction l generalizing a with
  | nil => simp
  | cons x xs ih => simp [List.foldl_cons, ih, add_assoc]

theorem consolidateSummary_foldl (results : List FileAnalysisResult) (acc : Summary) :
    results.foldl
      (fun acc result =>
        { total := acc.total + result.summary.total
        , critical := acc.critical + result.summary.critical
        , high := acc.high + result.summary.high
        , medium := acc.medium + result.summary.medium
        , low := acc.low + result.summary.low
        , good := acc.good + result.summary.good
        , info := acc.info + result.summary.info })
      acc =
    { total := acc.total + (results.map (fun r => r.summary.total)).sum
    , critical := acc.critical + (results.map (fun r => r.summary.critical)).sum
    , high := acc.high + (results.map (fun r => r.summary.high)).sum
    , medium := acc.medium + (results.map (fun r => r.summary.medium)).sum
    , low := acc.low + (results.map (fun r => r.summary.low)).sum
    , good := acc.good + (results.map (fun r => r.summary.good)).sum
    , info := acc.info + (results.map (fun r => r.summary.info)).sum } := by
  induction results generalizing acc with
  | nil => simp
  | cons x xs ih =>
    rw [List.foldl_cons, ih]
    simp [Nat.add_assoc]

/-- C6: for every list of per-file results, `consolidateSummary` is the
elementwise sum of the per-file summaries (in particular the `critical`
bucket is the sum of the per-file `critical` counts), and for a non-empty
list `calculateOverallScore`'s architecture component is the rounded
arithmetic mean of the per-file `architectureScore`s. -/
theorem aggregation_spec (results : List FileAnalysisResult) :
    consolidateSummary results = specSummarySum results ∧
    (consolidateSummary results).critical =
      (results.map (fun r => r.summary.critical)).sum ∧
    (results ≠ [] →
      (calculateOverallScore results).1 = jsRound (specMeanArchitecture results)) := by
  have hsum : consolidateSummary results = specSummarySum results := by
    rw [consolidateSummary, consolidateSummary_foldl, specSummarySum]
    simp
  refine ⟨hsum, by rw [hsum]; rfl, ?_⟩
  intro hne
  have hlen : ¬ results.length = 0 := by
    simpa [List.length_eq_zero] using hne
  rw [calculateOverallScore, if_neg hlen]
  simp only
  rw [specMeanArchitecture]
  rw [foldl_add_eq_sum_int (fun r => r.architectureScore) results 0]
  norm_num

/-- Two concrete per-file results used to witness the aggregation theorem. -/
def sampleResultA : FileAnalysisResult :=
  { file := "src/components/App.tsx"
  , totalIssues := 2
  , issues := []
  , summary := { total := 2, critical := 1, high := 0, medium := 1, low := 0
               , good := 0, info := 0 }
  , architectureScore := 80
  , cleanCodeScore := 84
  , suggestions := [] }

/-- Second concrete per-file result for the aggregation witness. -/
def sampleResultB : FileAnalysisResult :=
  { file := "src/pages/index.tsx"
  , totalIssues := 1
  , issues := []
  , summary := { total := 1, critical := 0, high := 1, medium := 0, low := 0
               , good := 0, info := 0 }
  , architectureScore := 91
  , cleanCodeScore := 93
  , suggestions := [] }

/-- C6 witness: the theorem applied to the two-file list, discharging the
non-emptiness hypothesis ((80 + 91)/2 = 85.5 rounds to 86). -/
theorem aggregation_spec_witness :
    (consolidateSummary [sampleResultA, sampleResultB]).critical =
      ([sampleResultA, sampleResultB].map (fun r => r.summary.critical)).sum ∧
    (calculateOverallScore [sampleResultA, sampleResultB]).1 =
      jsRound (specMeanArchitecture [sampleResultA, sampleResultB]) :=
  ⟨(aggregation_spec [sampleResultA, sampleResultB]).2.1,
   (aggregation_spec [sampleResultA, sampleResultB]).2.2 (List.cons_ne_nil _ _)⟩

/-! ## Recursive file discovery (`GitHubService.listReactFiles`) -/

/-- A remote directory entry as enumerated by `listFiles`: a file or a
directory with its (successfully listed) children; the tree models the remote
host's answers to the recursive `scanDirectory` calls. -/
inductive RemoteEntry where
  | file (name : String) (path : String)
  | dir (name : String) (path : String) (children : List RemoteEntry)

/-- The `path` field of an entry. -/
def RemoteEntry.path : RemoteEntry → String
  | .file _ p => p
  | .dir _ p _ => p

/-- The `ignorePaths` list of `listReactFiles`. -/
def ignorePaths : List String := ["node_modules", ".next", "dist", "build", "out"]

/-- The `reactExtensions` allow-list of `listReactFiles`. -/
def reactExtensions : List String := [".js", ".jsx", ".ts", ".tsx"]

/-- JavaScript `String.prototype.endsWith`. -/
def strEndsWith (s suffix : String) : Bool :=
  charsHavePrefix suffix.toList.reverse s.toList.reverse

mutual

/-- One iteration of the `scanDirectory` loop body: skip the entry when its
path contains an ignored directory name, recurse into a directory, collect a
file whose name ends in an allow-listed extension (as its `(name, path)`). -/
def scanEntry : RemoteEntry → List (String × String)
  | .file name path =>
    if ignorePaths.any (fun ignored => strIncludes path ignored) then []
    else if reactExtensions.any (fun ext => strEndsWith name ext) then [(name, path)]
    else []
  | .dir _ path children =>
    if ignorePaths.any (fun ignored => strIncludes path ignored) then []
    else scanEntries children

/-- `scanDirectory` applied to one directory listing, in entry order. -/
def scanEntries : List RemoteEntry → List (String × String)
  | [] => []
  | e :: rest => scanEntry e ++ scanEntries rest

end

/-- `GitHubService.listReactFiles` run against a remote tree whose root
listing is `root`. -/
def listReactFiles (root : List RemoteEntry) : List (String × String) :=
  scanEntries root

/-- Does a file name mark the file as a test (the `.test.` / `.spec.`
convention used elsewhere in the repository)? -/
def isTestFileName (name : String) : Bool :=
  strIncludes name ".test." || strIncludes name ".spec."

/-- C8 counterexample: a repository whose root contains `App.test.tsx` — a
test file outside every ignored directory — which `listReactFiles` returns
anyway: the function has no test-name exclusion. -/
theorem listReactFiles_returns_test_file :
    listReactFiles [RemoteEntry.file "App.test.tsx" "App.test.tsx"] =
      [("App.test.tsx", "App.test.tsx")] ∧
    isTestFileName "App.test.tsx" = true := by
  constructor
  · simp only [listReactFiles, scanEntries, scanEntry]
    decide
  · decide

mutual

theorem scanEntry_filtered_aux (e : RemoteEntry) (f : String × String)
    (hf : f ∈ scanEntry e) :
    (ignorePaths.all (fun ignored => !(strIncludes f.2 ignored))) = true ∧
    (reactExtensions.any (fun ext => strEndsWith f.1 ext)) = true := by
  cases e with
  | file name path =>
    simp only [scanEntry] at hf
    split at hf
    · simp at hf
    · next hig =>
        split at hf
        · next hext =>
            simp only [List.mem_singleton] at hf
            subst hf
            refine ⟨?_, hext⟩
            simp only [List.all_eq_true, Bool.not_eq_true']
            intro ig hmem
            cases hb : strIncludes path ig with
            | false => rfl
            | true => exact absurd (List.any_eq_true.mpr ⟨ig, hmem, hb⟩) hig
        · simp at hf
  | dir name path children =>
    simp only [scanEntry] at hf
    split at hf
    · simp at hf
    · exact scanEntries_filtered_aux children f hf

theorem scanEntries_filtered_aux (l : List RemoteEntry) (f : String × String)
    (hf : f ∈ scanEntries l) :
    (ignorePaths.all (fun ignored => !(strIncludes f.2 ignored))) = true ∧
    (reactExtensions.any (fun ext => strEndsWith f.1 ext)) = true := by
  cases l with
  | nil => simp [scanEntries] at hf
  | cons e rest =>
    rw [scanEntries] at hf
    rcases List.mem_append.mp hf with h | h
    · exact scanEntry_filtered_aux e f h
    · exact scanEntries_filtered_aux rest f h

end

/-- C8 (amended): every file returned by `listReactFiles` has a path
containing none of the ignored directory names and a name ending in one of
the allow-listed extensions — but files whose name marks them as tests are
NOT excluded (that filter exists only in the legacy flat handler, not in
`listReactFiles`). -/
theorem listReactFiles_filtered (root : List RemoteEntry) (f : String × String)
    (hf : f ∈ listReactFiles root) :
    (ignorePaths.all (fun ignored => !(strIncludes f.2 ignored))) = true ∧
    (reactExtensions.any (fun ext => strEndsWith f.1 ext)) = true :=
  scanEntries_filtered_aux root f hf

/-- C8 witness: the amended filter applied to a concrete two-level tree
containing a matching component file. -/
theorem listReactFiles_filtered_witness :
    (ignorePaths.all (fun ignored => !(strIncludes "src/App.tsx" ignored))) = true ∧
    (reactExtensions.any (fun ext => strEndsWith "App.tsx" ext)) = true :=
  listReactFiles_filtered
    [RemoteEntry.dir "src" "src" [RemoteEntry.file "App.tsx" "src/App.tsx"],
     RemoteEntry.file "README.md" "README.md"]
    ("App.tsx", "src/App.tsx")
    (by simp only [listReactFiles, scanEntries, scanEntry]; decide)

/-! ## The SRP rule's regex (`src/patterns/solid-principles.ts`)

`/class\s+\w+\s*\x7b[^\x7d]*(?:fetch|axios|console|localStorage)\x7b2,\x7d/gs`
embedded as a first-order regular expression and decided by Brzozowski
derivatives, so that concrete match questions evaluate in the kernel. -/

/-- Character classes appearing in the SRP pattern. -/
inductive CharClass where
  | chr (c : Char)
  | notChr (c : Char)
  | wordChar
  | spaceChar
deriving DecidableEq, Repr

/-- Does a character class match a character (`\w` is `[A-Za-z0-9_]`, `\s`
restricted to the ASCII whitespace occurring in source files)? -/
def ccMatch : CharClass → Char → Bool
  | .chr a, c => c = a
  | .notChr a, c => !(c = a)
  | .wordChar, c => c.isAlpha || c.isDigit || c = '_'
  | .spaceChar, c =>
      c = ' ' || c = '\t' || c = '\n' || c = '\r' || c = '\x0b' || c = '\x0c'

/-- Regular expressions over character classes. -/
inductive Regex where
  | eps
  | fail
  | cc (k : CharClass)
  | cat (r s : Regex)
  | alt (r s : Regex)
  | star (r : Regex)
deriving DecidableEq, Repr

/-- Does the expression accept the empty string? -/
def Regex.nullable : Regex → Bool
  | .eps => true
  | .fail => false
  | .cc _ => false
  | .cat r s => r.nullable && s.nullable
  | .alt r s => r.nullable || s.nullable
  | .star _ => true

/-- Smart concatenation (keeps derivatives small). -/
def Regex.scat : Regex → Regex → Regex
  | .fail, _ => .fail
  | .eps, s => s
  | _, .fail => .fail
  | r, .eps => r
  | r, s => .cat r s

/-- Smart alternation (keeps derivatives small). -/
def Regex.salt : Regex → Regex → Regex
  | .fail, s => s
  | r, .fail => r
  | r, s => .alt r s

/-- Brzozowski derivative with respect to one character. -/
def Regex.deriv : Regex → Char → Regex
  | .eps, _ => .fail
  | .fail, _ => .fail
  | .cc k, c => if ccMatch k c then .eps else .fail
  | .cat r s, c =>
    if r.nullable then Regex.salt (Regex.scat (r.deriv c) s) (s.deriv c)
    else Regex.scat (r.deriv c) s
  | .alt r s, c => Regex.salt (r.deriv c) (s.deriv c)
  | .star r, c => Regex.scat (r.deriv c) (.star r)

/-- Does the expression match some prefix of the character list? -/
def Regex.matchesPrefixOf (r : Regex) : List Char → Bool
  | [] => r.nullable
  | c :: cs =>
    r.nullable ||
      (match r.deriv c with
       | .fail => false
       | d => d.matchesPrefixOf cs)

/-- Does the expression match some substring (any start position)? This is
exactly `content.match(regex) !== null` for the unanchored JavaScript regex. -/
def Regex.matchesSomewhereIn (r : Regex) : List Char → Bool
  | [] => r.matchesPrefixOf []
  | c :: cs => r.matchesPrefixOf (c :: cs) || r.matchesSomewhereIn cs

/-- A string literal as a regex. -/
def litRegex (s : String) : Regex :=
  s.toList.foldr (fun c acc => Regex.cat (Regex.cc (.chr c)) acc) Regex.eps

/-- `r+` (`r` followed by `r*`). -/
def plusRegex (r : Regex) : Regex := Regex.cat r (Regex.star r)

/-- `(?:fetch|axios|console|localStorage)`. -/
def srpKeyword : Regex :=
  Regex.alt (litRegex "fetch")
    (Regex.alt (litRegex "axios")
      (Regex.alt (litRegex "console") (litRegex "localStorage")))

/-- The full SRP pattern:
`class` `\s+` `\w+` `\s*` `\x7b` `[^\x7d]*` followed by the keyword group
repeated `\x7b2,\x7d`, i.e. at least twice IN IMMEDIATE SUCCESSION. -/
def srpRegex : Regex :=
  Regex.cat (litRegex "class")
    (Regex.cat (plusRegex (Regex.cc .spaceChar))
      (Regex.cat (plusRegex (Regex.cc .wordChar))
        (Regex.cat (Regex.star (Regex.cc .spaceChar))
          (Regex.cat (Regex.cc (.chr '\x7b'))
            (Regex.cat (Regex.star (Regex.cc (.notChr '\x7d')))
              (Regex.cat srpKeyword
                (Regex.cat srpKeyword (Regex.star srpKeyword))))))))

/-- `content.match(srpRegex) !== null`: exactly the guard under which
`analyzePatterns` pushes the SRP-violation Issue for this rule. -/
def srpRuleFires (content : String) : Bool :=
  srpRegex.matchesSomewhereIn content.toList

set_option maxRecDepth 10000 in
/-- C4: a class body with two separated occurrences among
\x7bfetch(, console., localStorage.\x7d does NOT fire the SRP rule — the
pattern's `(?:fetch|axios|console|localStorage)\x7b2,\x7d` requires the
keywords to be adjacent, as the positive control with the contiguous text
"fetchconsole" shows — so `analyzePatterns` pushes no critical SRP Issue for
the file the claim (and the rule's own code example) describes. -/
theorem srpRule_misses_separated_keywords :
    srpRuleFires "class UserService \x7bfetch(url); console.log(x);" = false ∧
    srpRuleFires "class A \x7bfetchconsole" = true := by
  constructor
  · decide
  · decide

end MCP
